import Mathlib

/-!
# Verification of the Sahaay voice-interaction orchestration layer

Shallow embedding of the voice orchestration code:

* `AudioProcessor` — audio compression policy
  (source: `src/services/audioProcessor.ts`, bundled in `intentRecognition.ts`,
  `COMPRESSION_SETTINGS`, `getTargetSize`, `compressAudio`).
* `SpeechToTextServiceImpl` — recognition cascade over a cloud backend and an
  offline Whisper backend (source: `src/services/speechToText.ts`, bundled in
  `voiceInterface.ts`, lines 864–895 of the bundle).
* `TextToSpeechServiceImpl` — synthesis cascade (source: `src/services/textToSpeech.ts`).
* `VoiceInterfaceImpl` — session orchestrator with per-session contexts
  (source: `src/services/voiceInterface.ts`).

Backends (recognizers, synthesizers) are modelled as pluggable values, exactly
as the source treats them: each exposes an availability flag and a
transcription/synthesis function that may fail.  Machine state (the session
registry, a JS `Map`) is modelled as an association list with explicit state
passing.  Functions that `throw` in TypeScript return `Except`.  Orchestration
functions additionally return the list of backends (or backend-call arguments)
they invoked, so that "backend X is never invoked" is a statement about the
returned trace.
-/

namespace Sahaay

/-- Language codes are plain strings at runtime; the TS union type
`'en' | 'hi' | 'ta' | 'te' | 'bn'` is enforced by membership checks where the
source performs them. -/
abbrev LanguageCode := String

/-- Audio payloads enter the orchestration opaquely; only their byte size is
ever inspected (`blob.size`).  We model a payload by its size. -/
abbrev Audio := Nat

/-! ## Audio processor (`AudioProcessor` in `audioProcessor.ts`) -/

/-- One row of `COMPRESSION_SETTINGS`: bitrate (kbps), sample rate (Hz) and
the fractional `quality` used as the simulated compression ratio. -/
structure CompSetting where
  bitrate : Nat
  sampleRate : Nat
  quality : ℚ
deriving DecidableEq, Repr

/-- The fixed lookup table `COMPRESSION_SETTINGS` (levels 1–10).  The TS type
`CompressionLevel` is the literal union `1 | ... | 10`; other numbers are
unrepresentable in the source, so the catch-all row is never consulted. -/
def COMPRESSION_SETTINGS : Nat → CompSetting
  | 1 => ⟨8, 8000, 1/10⟩
  | 2 => ⟨16, 8000, 2/10⟩
  | 3 => ⟨24, 11025, 3/10⟩
  | 4 => ⟨32, 16000, 4/10⟩
  | 5 => ⟨48, 16000, 5/10⟩
  | 6 => ⟨64, 22050, 6/10⟩
  | 7 => ⟨96, 22050, 7/10⟩
  | 8 => ⟨128, 44100, 8/10⟩
  | 9 => ⟨192, 44100, 9/10⟩
  | 10 => ⟨320, 44100, 1⟩
  | _ => ⟨0, 0, 0⟩

/-- Configuration `AudioProcessorConfig` (only the fields the modelled methods read). -/
structure APConfig where
  enableCompression : Bool
  maxFileSize : Nat
  targetBitrate : Nat
deriving DecidableEq, Repr

/-- Defaults from the `AudioProcessor` constructor. -/
def APConfig.impl : APConfig :=
  { enableCompression := true, maxFileSize := 5 * 1024 * 1024, targetBitrate := 64 }

namespace AudioProcessor

/-- Source `getTargetSize`: `(settings.bitrate * 1000 * 10) / 8` — kbps over an
assumed 10-second baseline, converted to bytes (exact division here). -/
def getTargetSize (quality : Nat) : Nat :=
  (COMPRESSION_SETTINGS quality).bitrate * 1000 * 10 / 8

/-- Source `compressAudio` at the byte-size level.  The source returns the input blob
unchanged when compression is disabled or the blob is already at or below the
target size; otherwise `performCompression` produces a buffer of
`Math.floor(byteLength * settings.quality)` bytes. -/
def compressAudio (cfg : APConfig) (size : Nat) (quality : Nat) : Nat :=
  if cfg.enableCompression = false then size
  else
    let settings := COMPRESSION_SETTINGS quality
    if size ≤ getTargetSize quality then size
    else (⌊(size : ℚ) * settings.quality⌋).toNat

end AudioProcessor

/-! ## Recognition cascade (`SpeechToTextServiceImpl.transcribe`) -/

/-- Record `TranscriptionResult` from `types.ts`. -/
structure TranscriptionResult where
  text : String
  confidence : ℚ
  detectedLanguage : LanguageCode
  alternatives : List String
deriving DecidableEq, Repr

/-- A pluggable recognition backend (the cloud service or the Whisper
service), reduced to its interface: an availability report, a supported
language list and a transcription function that may throw. -/
structure STTBackend where
  available : Bool
  supported : List LanguageCode
  transcribeFn : Audio → Option LanguageCode → Except String TranscriptionResult

/-- Configuration `STTConfig` (the fields `transcribe` reads). -/
structure STTConfig where
  fallbackToOffline : Bool
  compressionEnabled : Bool
  confidenceThreshold : ℚ
  supportedLanguages : List LanguageCode

/-- Defaults from the `SpeechToTextServiceImpl` constructor
(`confidenceThreshold: 0.8`). -/
def STTConfig.impl : STTConfig :=
  { fallbackToOffline := true, compressionEnabled := true,
    confidenceThreshold := 4/5, supportedLanguages := ["en", "hi", "ta", "te", "bn"] }

/-- Which sub-service a cascade run invoked. -/
inductive BackendId where
  | cloud
  | whisper
deriving DecidableEq, Repr

namespace SpeechToTextServiceImpl

/-- The offline tail of `transcribe` (the code after the cloud attempt):
use Whisper when `fallbackToOffline` is set and it reports available,
otherwise throw `'No STT service available'`. -/
def transcribeFallback (cfg : STTConfig) (whisper : STTBackend) (audio : Audio)
    (language : Option LanguageCode) (invoked : List BackendId) :
    Except String TranscriptionResult × List BackendId :=
  if cfg.fallbackToOffline && whisper.available then
    (whisper.transcribeFn audio language, invoked ++ [.whisper])
  else
    (.error "No STT service available", invoked)

/-- Source `SpeechToTextServiceImpl.transcribe`: try the cloud service first; accept
its result when `result.confidence >= confidenceThreshold`; otherwise (or when
the cloud service is unavailable) fall back to Whisper.  An exception from an
invoked backend propagates through the outer `catch`, which rethrows.
The second component records which backends were invoked, in order. -/
def transcribe (cfg : STTConfig) (cloud whisper : STTBackend) (audio : Audio)
    (language : Option LanguageCode) :
    Except String TranscriptionResult × List BackendId :=
  if cloud.available then
    match cloud.transcribeFn audio language with
    | .error e => (.error e, [.cloud])
    | .ok r =>
      if cfg.confidenceThreshold ≤ r.confidence then (.ok r, [.cloud])
      else transcribeFallback cfg whisper audio language [.cloud]
  else transcribeFallback cfg whisper audio language []

end SpeechToTextServiceImpl

/-- JS `String.prototype.trim`: strip leading and trailing whitespace, modelled
structurally over the character list (so that concrete instances compute). -/
def jsTrim (s : String) : String :=
  ⟨((s.data.dropWhile Char.isWhitespace).reverse.dropWhile Char.isWhitespace).reverse⟩

/-! ## Synthesis cascade (`TextToSpeechServiceImpl.synthesize`) -/

/-- Record `VoiceProfile` from `types.ts`. -/
structure VoiceProfile where
  language : LanguageCode
  gender : String
  speed : ℚ
  pitch : ℚ
deriving DecidableEq, Repr

/-- Record `AudioBlob` from `types.ts`, with the byte payload modelled by its size. -/
structure AudioBlobT where
  dataSize : Nat
  format : String
  duration : ℚ
  sampleRate : Nat
deriving DecidableEq, Repr

/-- The local TTS engine, at its `LocalTTSEngine` interface. -/
structure LocalEngine where
  supported : List LanguageCode
  synthFn : String → LanguageCode → VoiceProfile → Except String AudioBlobT

/-- The cloud TTS provider, at its `CloudTTSProvider` interface. -/
structure CloudProvider where
  available : Bool
  synthFn : String → LanguageCode → VoiceProfile → Except String AudioBlobT

/-- Configuration `TTSConfig` (the fields `synthesize` reads). -/
structure TTSConfig where
  preferLocalTTS : Bool
  enableCloudTTS : Bool
  defaultVoiceProfile : VoiceProfile

/-- Defaults from the `TextToSpeechServiceImpl` constructor. -/
def TTSConfig.impl : TTSConfig :=
  { preferLocalTTS := true, enableCloudTTS := true,
    defaultVoiceProfile := ⟨"hi", "female", 1, 1⟩ }

/-- Errors from `synthesize`: validation throws happen before the `try` block
and propagate as-is; anything thrown inside the `try` is rethrown by the
`catch` wrapped as `'Text-to-speech synthesis failed: ...'`. -/
inductive TTSErr where
  | validation (msg : String)
  | wrapped (msg : String)
deriving DecidableEq, Repr

/-- Which synthesis backend a `synthesize` run invoked. -/
inductive TTSBackendId where
  | localEngine
  | cloudProvider
deriving DecidableEq, Repr

namespace TextToSpeechServiceImpl

/-- The instance field `supportedLanguages` of `TextToSpeechServiceImpl`. -/
def supportedLanguages : List LanguageCode := ["en", "hi", "ta", "te", "bn"]

/-- Source `TextToSpeechServiceImpl.synthesize`: validate (empty text, unsupported
language) before touching any backend, then cascade local-preferred → cloud →
local (even if not preferred) → `'No TTS engine available'`.
`postProcessAudio` is the identity in the source.  The second component
records which backends were invoked, in order. -/
def synthesize (cfg : TTSConfig) (localEngine : LocalEngine) (cloudProvider : CloudProvider)
    (text : String) (language : LanguageCode) (voice : Option VoiceProfile) :
    Except TTSErr AudioBlobT × List TTSBackendId :=
  if text = "" ∨ jsTrim text = "" then
    (.error (.validation "Text cannot be empty"), [])
  else if language ∉ supportedLanguages then
    (.error (.validation ("Language " ++ language ++ " is not supported")), [])
  else
    let effectiveVoice := voice.getD { cfg.defaultVoiceProfile with language := language }
    if cfg.preferLocalTTS && (language ∈ localEngine.supported) then
      match localEngine.synthFn text language effectiveVoice with
      | .ok r => (.ok r, [.localEngine])
      | .error e => (.error (.wrapped ("Text-to-speech synthesis failed: " ++ e)), [.localEngine])
    else if cfg.enableCloudTTS && cloudProvider.available then
      match cloudProvider.synthFn text language effectiveVoice with
      | .ok r => (.ok r, [.cloudProvider])
      | .error e => (.error (.wrapped ("Text-to-speech synthesis failed: " ++ e)), [.cloudProvider])
    else if language ∈ localEngine.supported then
      match localEngine.synthFn text language effectiveVoice with
      | .ok r => (.ok r, [.localEngine])
      | .error e => (.error (.wrapped ("Text-to-speech synthesis failed: " ++ e)), [.localEngine])
    else
      (.error (.wrapped ("Text-to-speech synthesis failed: No TTS engine available for language: "
        ++ language)), [])

end TextToSpeechServiceImpl

/-! ## Session orchestrator (`VoiceInterfaceImpl`) -/

/-- Input modality. -/
inductive InputMode where
  | voice
  | text
deriving DecidableEq, Repr

/-- One entry of `conversationHistory`. -/
structure InteractionRecord where
  timestamp : Nat
  inputMode : InputMode
  success : Bool
  language : LanguageCode
deriving DecidableEq, Repr

/-- Record `VoiceContext` from `interfaces/voice.ts`. -/
structure VoiceContext where
  sessionId : String
  currentLanguage : LanguageCode
  inputMode : InputMode
  lastInteraction : Nat
  failureCount : Nat
  totalInteractions : Nat
  fallbackSuggested : Bool
  conversationHistory : List InteractionRecord
deriving DecidableEq, Repr

/-- Record `FallbackSuggestion` from `interfaces/voice.ts`; the absent
`lastSuccessfulMode` key is `none`. -/
structure FallbackSuggestion where
  shouldSuggestFallback : Bool
  reason : String
  failureCount : Nat
  lastSuccessfulMode : Option InputMode
deriving DecidableEq, Repr

/-- Configuration `VoiceInterfaceConfig`. -/
structure VIConfig where
  enableVoiceInput : Bool
  enableVoiceOutput : Bool
  fallbackToText : Bool
  preserveContext : Bool
  audioCompression : Bool
  defaultLanguage : LanguageCode
  maxFailuresBeforeFallback : Nat
  contextTimeoutMinutes : Nat
deriving DecidableEq, Repr

/-- Defaults from the `VoiceInterfaceImpl` constructor
(`maxFailuresBeforeFallback: 2`, `defaultLanguage: 'hi'`). -/
def VIConfig.impl : VIConfig :=
  { enableVoiceInput := true, enableVoiceOutput := true, fallbackToText := true,
    preserveContext := true, audioCompression := true, defaultLanguage := "hi",
    maxFailuresBeforeFallback := 2, contextTimeoutMinutes := 30 }

/-- The session registry `contexts: Map<string, VoiceContext>`, as an
association list in insertion order. -/
abbrev ContextMap := List (String × VoiceContext)

/-- Lookup `contexts.get(sessionId)`. -/
def ctxLookup : ContextMap → String → Option VoiceContext
  | [], _ => none
  | (k, v) :: rest, sid => if k = sid then some v else ctxLookup rest sid

/-- In-place mutation of the context object held under a key (the source
mutates the `VoiceContext` retrieved from the `Map`). -/
def ctxUpdate (st : ContextMap) (sid : String) (f : VoiceContext → VoiceContext) : ContextMap :=
  st.map fun p => if p.1 = sid then (p.1, f p.2) else p

/-- Insertion `contexts.set(sessionId, ctx)`: replace the held value, or append a new
entry when the key is absent. -/
def ctxSet (st : ContextMap) (sid : String) (c : VoiceContext) : ContextMap :=
  if (ctxLookup st sid).isSome then ctxUpdate st sid fun _ => c else st ++ [(sid, c)]

/-- Truncation `array.slice(-10)`: the last ten elements (truncation from the front). -/
def sliceLast10 (l : List InteractionRecord) : List InteractionRecord :=
  l.drop (l.length - 10)

namespace VoiceInterfaceImpl

/-- Source `setContext`: no-op when `preserveContext` is off; otherwise (re)create the
entry, carrying over the failure counters of an existing entry and appending a
success-shaped record to its history, truncated to the last ten. -/
def setContext (cfg : VIConfig) (now : Nat) (sid : String) (language : LanguageCode)
    (mode : InputMode) (st : ContextMap) : ContextMap :=
  if cfg.preserveContext = false then st
  else
    let existing := ctxLookup st sid
    ctxSet st sid
      { sessionId := sid
        currentLanguage := language
        inputMode := mode
        lastInteraction := now
        failureCount := (existing.map (·.failureCount)).getD 0
        totalInteractions := (existing.map (·.totalInteractions)).getD 0 + 1
        fallbackSuggested := (existing.map (·.fallbackSuggested)).getD false
        conversationHistory :=
          sliceLast10 (((existing.map (·.conversationHistory)).getD [])
            ++ [⟨now, mode, true, language⟩]) }

/-- Source `updateContextOnSuccess`: no-op when `preserveContext` is off or no entry
exists; otherwise reset `failureCount`, bump `totalInteractions`, record the
interaction and truncate history. -/
def updateContextOnSuccess (cfg : VIConfig) (now : Nat) (sid : String)
    (language : LanguageCode) (mode : InputMode) (st : ContextMap) : ContextMap :=
  if cfg.preserveContext = false then st
  else
    match ctxLookup st sid with
    | none => st
    | some _ =>
      ctxUpdate st sid fun c =>
        { c with
          currentLanguage := language
          lastInteraction := now
          failureCount := 0
          totalInteractions := c.totalInteractions + 1
          conversationHistory :=
            sliceLast10 (c.conversationHistory ++ [⟨now, mode, true, language⟩]) }

/-- The body of `updateContextOnFailure` once a context exists: bump the
counters, record the failed interaction, and decide whether to surface a
fallback suggestion (`fallbackToText` on, threshold reached, voice input,
not yet suggested); surfacing sets `fallbackSuggested`. -/
def failCtxStep (cfg : VIConfig) (now : Nat) (mode : InputMode) (c : VoiceContext) :
    VoiceContext × FallbackSuggestion :=
  let c1 : VoiceContext :=
    { c with
      failureCount := c.failureCount + 1
      lastInteraction := now
      totalInteractions := c.totalInteractions + 1
      conversationHistory :=
        sliceLast10 (c.conversationHistory ++ [⟨now, mode, false, c.currentLanguage⟩]) }
  let shouldSuggest := cfg.fallbackToText
    && decide (cfg.maxFailuresBeforeFallback ≤ c1.failureCount)
    && decide (mode = .voice) && !c1.fallbackSuggested
  if shouldSuggest then
    let lastSuccessful := c1.conversationHistory.reverse.find? (·.success)
    ({ c1 with fallbackSuggested := true },
      ⟨true, "multiple_failures", c1.failureCount, lastSuccessful.map (·.inputMode)⟩)
  else
    (c1, ⟨false, "multiple_failures", c1.failureCount, none⟩)

/-- Source `updateContextOnFailure`: with no entry, return the no-suggestion record
and leave the registry untouched (note: this method is not gated on
`preserveContext`). -/
def updateContextOnFailure (cfg : VIConfig) (now : Nat) (sid : String) (mode : InputMode)
    (st : ContextMap) : ContextMap × FallbackSuggestion :=
  match ctxLookup st sid with
  | none => (st, ⟨false, "multiple_failures", 0, none⟩)
  | some c =>
    let r := failCtxStep cfg now mode c
    (ctxUpdate st sid fun _ => r.1, r.2)

/-- Source `switchInputMode`: `false` when no entry exists; otherwise switch the
modality, reset `failureCount` and `fallbackSuggested`, record the switch. -/
def switchInputMode (now : Nat) (sid : String) (newMode : InputMode) (st : ContextMap) :
    ContextMap × Bool :=
  match ctxLookup st sid with
  | none => (st, false)
  | some _ =>
    (ctxUpdate st sid fun c =>
      { c with
        inputMode := newMode
        lastInteraction := now
        failureCount := 0
        fallbackSuggested := false
        conversationHistory :=
          sliceLast10 (c.conversationHistory ++ [⟨now, newMode, true, c.currentLanguage⟩]) },
      true)

/-- The speech-to-text service as `VoiceInterfaceImpl` consumes it:
`hasDetection` is the `instanceof SpeechToTextServiceImpl` test guarding the
service's language-detection capability. -/
structure STTService where
  hasDetection : Bool
  detectFn : Audio → Except String LanguageCode
  transcribeFn : Audio → LanguageCode → Except String TranscriptionResult

/-- Source `VoiceInterfaceImpl.detectLanguage`: delegate to the service's detection
when it has one, and fall back to `config.defaultLanguage` both when it does
not and when detection throws (the `catch` swallows the error). -/
def detectLanguage (cfg : VIConfig) (stt : STTService) (audio : Audio) : LanguageCode :=
  if stt.hasDetection then
    match stt.detectFn audio with
    | .ok l => l
    | .error _ => cfg.defaultLanguage
  else cfg.defaultLanguage

/-- Outcome of one `convertSpeechToText` call. -/
inductive STTOutcome where
  | ok (r : TranscriptionResult)
  | disabled
  | fallbackError (s : FallbackSuggestion)
  | error (e : String)
deriving DecidableEq, Repr

/-- Holds (`true`) exactly for the `VoiceInputError` that carries a fallback
suggestion. -/
def STTOutcome.isFallback : STTOutcome → Bool
  | .fallbackError _ => true
  | _ => false

/-- Result of one `convertSpeechToText` call: the outcome, the registry
afterwards, and the language arguments of the `sttService.transcribe` calls
made (the instrumented trace). -/
structure STTCallResult where
  outcome : STTOutcome
  state : ContextMap
  calledLanguages : List LanguageCode
deriving Repr

/-- Source `convertSpeechToText`: refuse when voice input is disabled; resolve the
target language as `language || detectLanguage(audio)`; transcribe; update the
context for the session (if any) on success or failure; on failure, raise the
fallback-carrying `VoiceInputError` exactly when the failure update says to
suggest a fallback, otherwise rethrow the original error. -/
def convertSpeechToText (cfg : VIConfig) (stt : STTService) (now : Nat) (audio : Audio)
    (language : Option LanguageCode) (sessionId : Option String) (st : ContextMap) :
    STTCallResult :=
  if cfg.enableVoiceInput = false then ⟨.disabled, st, []⟩
  else
    let targetLanguage := language.getD (detectLanguage cfg stt audio)
    match stt.transcribeFn audio targetLanguage with
    | .ok r =>
      let st' := match sessionId with
        | some sid => updateContextOnSuccess cfg now sid targetLanguage .voice st
        | none => st
      ⟨.ok r, st', [targetLanguage]⟩
    | .error e =>
      match sessionId with
      | some sid =>
        let r := updateContextOnFailure cfg now sid .voice st
        if r.2.shouldSuggestFallback then ⟨.fallbackError r.2, r.1, [targetLanguage]⟩
        else ⟨.error e, r.1, [targetLanguage]⟩
      | none => ⟨.error e, st, [targetLanguage]⟩

/-- Result record of `processTextInput`. -/
structure TextResult where
  processedText : String
  detectedLanguage : LanguageCode
  confidence : ℚ
deriving DecidableEq, Repr

/-- Source `processTextInput`: reject empty / whitespace-only text before touching
any context; otherwise resolve the language as
`language || context?.currentLanguage || config.defaultLanguage`, update the
context as a success, and return the trimmed text with confidence 1. -/
def processTextInput (cfg : VIConfig) (now : Nat) (text : String) (sid : String)
    (language : Option LanguageCode) (st : ContextMap) :
    Except String TextResult × ContextMap :=
  if text = "" ∨ jsTrim text = "" then (.error "Text input cannot be empty", st)
  else
    let context := ctxLookup st sid
    let targetLanguage := ((language.orElse fun _ => context.map (·.currentLanguage))).getD
      cfg.defaultLanguage
    let st' := updateContextOnSuccess cfg now sid targetLanguage .text st
    (.ok ⟨jsTrim text, targetLanguage, 1⟩, st')

/-- A run of `convertSpeechToText` calls against one session, collecting each
call's outcome in call order. -/
def sttRun (cfg : VIConfig) (stt : STTService) (now : Nat) (audio : Audio)
    (language : Option LanguageCode) (sid : String) :
    Nat → ContextMap → ContextMap × List STTOutcome
  | 0, st => (st, [])
  | n + 1, st =>
    let r := convertSpeechToText cfg stt now audio language (some sid) st
    let rest := sttRun cfg stt now audio language sid n r.state
    (rest.1, r.outcome :: rest.2)

/-- One interaction on a session, through the public surface that touches the
conversation history. -/
inductive SessionOp where
  | set (now : Nat) (language : LanguageCode) (mode : InputMode)
  | success (now : Nat) (language : LanguageCode) (mode : InputMode)
  | failure (now : Nat) (mode : InputMode)
  | switch (now : Nat) (newMode : InputMode)
deriving DecidableEq, Repr

/-- Apply one interaction to the registry (result values discarded). -/
def applyOp (cfg : VIConfig) (sid : String) : SessionOp → ContextMap → ContextMap
  | .set now language mode, st => setContext cfg now sid language mode st
  | .success now language mode, st => updateContextOnSuccess cfg now sid language mode st
  | .failure now mode, st => (updateContextOnFailure cfg now sid mode st).1
  | .switch now newMode, st => (switchInputMode now sid newMode st).1

/-- Apply a sequence of interactions, first element first. -/
def applyOps (cfg : VIConfig) (sid : String) : List SessionOp → ContextMap → ContextMap
  | [], st => st
  | op :: ops, st => applyOps cfg sid ops (applyOp cfg sid op st)

/-- The history records an interaction appends in the given registry state
(empty when the operation leaves the history untouched).  This is read off the
operations above: `set` always appends (when contexts are preserved),
`success` appends only to an existing entry, `failure` and `switch` append
only to an existing entry and stamp its current language. -/
def opRecordAt (cfg : VIConfig) (sid : String) (op : SessionOp) (st : ContextMap) :
    List InteractionRecord :=
  match op, ctxLookup st sid with
  | .set now language mode, _ =>
    if cfg.preserveContext then [⟨now, mode, true, language⟩] else []
  | .success now language mode, some _ =>
    if cfg.preserveContext then [⟨now, mode, true, language⟩] else []
  | .success _ _ _, none => []
  | .failure now mode, some c => [⟨now, mode, false, c.currentLanguage⟩]
  | .failure _ _, none => []
  | .switch now newMode, some c => [⟨now, newMode, true, c.currentLanguage⟩]
  | .switch _ _, none => []

/-- The full, untruncated log of history records appended by a run — the
ghost list of "all interaction records", of which the bounded history must be
the ten most recent. -/
def runLog (cfg : VIConfig) (sid : String) : List SessionOp → ContextMap → List InteractionRecord
  | [], _ => []
  | op :: ops, st => opRecordAt cfg sid op st ++ runLog cfg sid ops (applyOp cfg sid op st)

/-- Histories of every registered session are at most ten records long. -/
def histInv (st : ContextMap) : Prop :=
  ∀ p ∈ st, (p.2.conversationHistory).length ≤ 10

instance (st : ContextMap) : Decidable (histInv st) := by
  unfold histInv; infer_instance

end VoiceInterfaceImpl

/-! ## Registry and truncation lemmas -/

namespace VoiceInterfaceImpl

theorem ctxLookup_ctxUpdate_self (st : ContextMap) (sid : String) (f : VoiceContext → VoiceContext) :
    ctxLookup (ctxUpdate st sid f) sid = (ctxLookup st sid).map f := by
  induction st with
  | nil => rfl
  | cons p rest ih =>
    obtain ⟨k, v⟩ := p
    show ctxLookup ((if k = sid then (k, f v) else (k, v)) :: ctxUpdate rest sid f) sid = _
    by_cases h : k = sid
    · rw [if_pos h]
      subst h
      simp [ctxLookup]
    · rw [if_neg h]
      show ctxLookup ((k, v) :: ctxUpdate rest sid f) sid = _
      simp [ctxLookup, h, ih]

theorem ctxLookup_append_of_none (st l : ContextMap) (sid : String)
    (h : ctxLookup st sid = none) : ctxLookup (st ++ l) sid = ctxLookup l sid := by
  induction st with
  | nil => rfl
  | cons p rest ih =>
    obtain ⟨k, v⟩ := p
    by_cases hk : k = sid
    · simp [ctxLookup, hk] at h
    · simp [ctxLookup, hk] at h ⊢
      exact ih h

theorem ctxLookup_ctxSet_self (st : ContextMap) (sid : String) (c : VoiceContext) :
    ctxLookup (ctxSet st sid c) sid = some c := by
  unfold ctxSet
  by_cases h : (ctxLookup st sid).isSome
  · rw [if_pos h, ctxLookup_ctxUpdate_self]
    obtain ⟨v, hv⟩ := Option.isSome_iff_exists.mp h
    simp [hv]
  · rw [if_neg h]
    rw [ctxLookup_append_of_none st _ sid (Option.not_isSome_iff_eq_none.mp h)]
    simp [ctxLookup]

theorem sliceLast10_length_le (l : List InteractionRecord) : (sliceLast10 l).length ≤ 10 := by
  simp only [sliceLast10, List.length_drop]
  omega

theorem sliceLast10_of_length_le (l : List InteractionRecord) (h : l.length ≤ 10) :
    sliceLast10 l = l := by
  simp only [sliceLast10, Nat.sub_eq_zero_of_le h, List.drop_zero]

theorem sliceLast10_length_of_ge (l : List InteractionRecord) (h : 10 ≤ l.length) :
    (sliceLast10 l).length = 10 := by
  simp only [sliceLast10, List.length_drop]
  omega

theorem sliceLast10_eq_rtake (l : List InteractionRecord) : sliceLast10 l = l.rtake 10 := rfl

theorem sliceLast10_append_one (l : List InteractionRecord) (a : InteractionRecord) :
    sliceLast10 (sliceLast10 l ++ [a]) = sliceLast10 (l ++ [a]) := by
  rw [sliceLast10_eq_rtake, sliceLast10_eq_rtake, sliceLast10_eq_rtake,
      List.rtake_eq_reverse_take_reverse, List.rtake_eq_reverse_take_reverse,
      List.rtake_eq_reverse_take_reverse]
  simp only [List.reverse_append, List.reverse_reverse, List.reverse_singleton,
    List.singleton_append]
  rw [show (10 : Nat) = 9 + 1 from rfl, List.take_succ_cons, List.take_succ_cons,
      List.take_take]
  norm_num

/-! ## Failure-step lemmas -/

theorem failCtxStep_failureCount (cfg : VIConfig) (now : Nat) (mode : InputMode)
    (c : VoiceContext) : ((failCtxStep cfg now mode c).1).failureCount = c.failureCount + 1 := by
  simp only [failCtxStep]
  split <;> rfl

theorem failCtxStep_history (cfg : VIConfig) (now : Nat) (mode : InputMode) (c : VoiceContext) :
    ((failCtxStep cfg now mode c).1).conversationHistory
      = sliceLast10 (c.conversationHistory ++ [⟨now, mode, false, c.currentLanguage⟩]) := by
  simp only [failCtxStep]
  split <;> rfl

theorem failCtxStep_currentLanguage (cfg : VIConfig) (now : Nat) (mode : InputMode)
    (c : VoiceContext) : ((failCtxStep cfg now mode c).1).currentLanguage = c.currentLanguage := by
  simp only [failCtxStep]
  split <;> rfl

theorem failCtxStep_suggest (cfg : VIConfig) (now : Nat) (mode : InputMode) (c : VoiceContext) :
    ((failCtxStep cfg now mode c).2).shouldSuggestFallback
      = (cfg.fallbackToText && decide (cfg.maxFailuresBeforeFallback ≤ c.failureCount + 1)
          && decide (mode = InputMode.voice) && !c.fallbackSuggested) := by
  simp only [failCtxStep]
  split <;> simp_all

theorem failCtxStep_fallbackSuggested (cfg : VIConfig) (now : Nat) (mode : InputMode)
    (c : VoiceContext) :
    ((failCtxStep cfg now mode c).1).fallbackSuggested
      = (c.fallbackSuggested || ((failCtxStep cfg now mode c).2).shouldSuggestFallback) := by
  simp only [failCtxStep]
  split <;> rename_i h <;> simp_all

/-! ## One failing `convertSpeechToText` call, and runs of them -/

theorem convertSpeechToText_failStep (cfg : VIConfig) (stt : STTService) (now : Nat)
    (audio : Audio) (language : Option LanguageCode) (sid : String) (st : ContextMap)
    (ctx : VoiceContext) (e : String)
    (hen : cfg.enableVoiceInput = true)
    (hfail : ∀ a l, stt.transcribeFn a l = .error e)
    (hctx : ctxLookup st sid = some ctx) :
    ((convertSpeechToText cfg stt now audio language (some sid) st).state
        = ctxUpdate st sid fun _ => (failCtxStep cfg now .voice ctx).1) ∧
    ((convertSpeechToText cfg stt now audio language (some sid) st).outcome.isFallback
        = ((failCtxStep cfg now .voice ctx).2).shouldSuggestFallback) := by
  have h0 : ¬(cfg.enableVoiceInput = false) := by simp [hen]
  simp only [convertSpeechToText, if_neg h0, hfail, updateContextOnFailure, hctx]
  constructor
  · split <;> rfl
  · split <;> rename_i h <;> simp [STTOutcome.isFallback, h]

theorem convertSpeechToText_okState (cfg : VIConfig) (stt : STTService) (now : Nat)
    (audio : Audio) (language : Option LanguageCode) (sid : String) (st : ContextMap)
    (r : TranscriptionResult)
    (hen : cfg.enableVoiceInput = true)
    (hok : ∀ a l, stt.transcribeFn a l = .ok r) :
    (convertSpeechToText cfg stt now audio language (some sid) st).state
      = updateContextOnSuccess cfg now sid (language.getD (detectLanguage cfg stt audio))
          InputMode.voice st := by
  have h0 : ¬(cfg.enableVoiceInput = false) := by simp [hen]
  simp only [convertSpeechToText, if_neg h0, hok]

theorem updateContextOnSuccess_fallbackSuggested (cfg : VIConfig) (now : Nat) (sid : String)
    (language : LanguageCode) (mode : InputMode) (st : ContextMap) (ctx : VoiceContext)
    (hctx : ctxLookup st sid = some ctx) :
    ∃ ctx2, ctxLookup (updateContextOnSuccess cfg now sid language mode st) sid = some ctx2
      ∧ ctx2.fallbackSuggested = ctx.fallbackSuggested := by
  unfold updateContextOnSuccess
  by_cases hp : cfg.preserveContext = false
  · exact ⟨ctx, by simp [hp, hctx]⟩
  · rw [if_neg hp, hctx]
    refine ⟨{ ctx with
        currentLanguage := language
        lastInteraction := now
        failureCount := 0
        totalInteractions := ctx.totalInteractions + 1
        conversationHistory :=
          sliceLast10 (ctx.conversationHistory ++ [⟨now, mode, true, language⟩]) }, ?_, rfl⟩
    rw [ctxLookup_ctxUpdate_self, hctx]
    rfl

theorem switchInputMode_resets (now : Nat) (sid : String) (newMode : InputMode)
    (st : ContextMap) (ctx : VoiceContext) (hctx : ctxLookup st sid = some ctx) :
    (switchInputMode now sid newMode st).2 = true ∧
    ∃ ctx2, ctxLookup ((switchInputMode now sid newMode st).1) sid = some ctx2
      ∧ ctx2.failureCount = 0 ∧ ctx2.fallbackSuggested = false := by
  unfold switchInputMode
  rw [hctx]
  refine ⟨rfl, ?_⟩
  refine ⟨{ ctx with
      inputMode := newMode
      lastInteraction := now
      failureCount := 0
      fallbackSuggested := false
      conversationHistory :=
        sliceLast10 (ctx.conversationHistory ++ [⟨now, newMode, true, ctx.currentLanguage⟩]) },
    ?_, rfl, rfl⟩
  rw [ctxLookup_ctxUpdate_self, hctx]
  rfl

/-- Invariant characterisation of a run of failing recognition calls: starting
from a registered context whose `fallbackSuggested` flag agrees with whether
the threshold has already been passed, `failureCount` grows by one per call
and the fallback-carrying error appears exactly when the counter first
reaches `maxFailuresBeforeFallback`. -/
theorem sttRun_fail_spec (cfg : VIConfig) (stt : STTService) (now : Nat) (audio : Audio)
    (language : Option LanguageCode) (sid : String) (e : String)
    (hen : cfg.enableVoiceInput = true) (hfb : cfg.fallbackToText = true)
    (hfail : ∀ a l, stt.transcribeFn a l = .error e) :
    ∀ (N : Nat) (st : ContextMap) (ctx : VoiceContext),
      ctxLookup st sid = some ctx →
      ctx.fallbackSuggested = decide (cfg.maxFailuresBeforeFallback ≤ ctx.failureCount) →
      ((ctxLookup (sttRun cfg stt now audio language sid N st).1 sid).map (·.failureCount)
          = some (ctx.failureCount + N)) ∧
      ((sttRun cfg stt now audio language sid N st).2.map (·.isFallback)
          = (List.range N).map fun j =>
              decide (ctx.failureCount + j + 1 = cfg.maxFailuresBeforeFallback)) := by
  intro N
  induction N with
  | zero =>
    intro st ctx hctx _
    simp [sttRun, hctx]
  | succ n ih =>
    intro st ctx hctx hfs
    obtain ⟨hstate, houtcome⟩ :=
      convertSpeechToText_failStep cfg stt now audio language sid st ctx e hen hfail hctx
    have hctx1 : ctxLookup ((convertSpeechToText cfg stt now audio language (some sid) st).state)
        sid = some ((failCtxStep cfg now .voice ctx).1) := by
      rw [hstate, ctxLookup_ctxUpdate_self, hctx]
      rfl
    have hsuggest : ((failCtxStep cfg now .voice ctx).2).shouldSuggestFallback
        = decide (ctx.failureCount + 1 = cfg.maxFailuresBeforeFallback) := by
      rw [failCtxStep_suggest, hfb, hfs]
      by_cases h1 : cfg.maxFailuresBeforeFallback ≤ ctx.failureCount + 1 <;>
        by_cases h2 : cfg.maxFailuresBeforeFallback ≤ ctx.failureCount <;>
          simp [h1, h2] <;> omega
    have hfs1 : ((failCtxStep cfg now .voice ctx).1).fallbackSuggested
        = decide (cfg.maxFailuresBeforeFallback ≤ ((failCtxStep cfg now .voice ctx).1).failureCount) := by
      rw [failCtxStep_fallbackSuggested, failCtxStep_failureCount, hfs, hsuggest]
      by_cases h1 : cfg.maxFailuresBeforeFallback ≤ ctx.failureCount + 1 <;>
        by_cases h2 : cfg.maxFailuresBeforeFallback ≤ ctx.failureCount <;>
          simp [h1, h2] <;> omega
    obtain ⟨ihCount, ihMap⟩ := ih
      ((convertSpeechToText cfg stt now audio language (some sid) st).state)
      ((failCtxStep cfg now .voice ctx).1) hctx1 hfs1
    constructor
    · show (ctxLookup (sttRun cfg stt now audio language sid n
          ((convertSpeechToText cfg stt now audio language (some sid) st).state)).1 sid).map
          (·.failureCount) = _
      rw [ihCount, failCtxStep_failureCount]
      congr 1
      omega
    · show ((convertSpeechToText cfg stt now audio language (some sid) st).outcome ::
          (sttRun cfg stt now audio language sid n
            ((convertSpeechToText cfg stt now audio language (some sid) st).state)).2).map
          (·.isFallback) = _
      rw [List.map_cons, houtcome, hsuggest, ihMap, List.range_succ_eq_map, List.map_cons,
          List.map_map]
      simp only [failCtxStep_failureCount, List.cons.injEq, Function.comp]
      refine ⟨trivial, List.map_congr_left fun j hj => ?_⟩
      exact decide_eq_decide.mpr (by omega)

/-- Once `fallbackSuggested` is set on a session, a run of failing recognition
calls never raises the fallback-carrying error again (and the flag stays
set). -/
theorem sttRun_suppressed (cfg : VIConfig) (stt : STTService) (now : Nat) (audio : Audio)
    (language : Option LanguageCode) (sid : String) (e : String)
    (hen : cfg.enableVoiceInput = true)
    (hfail : ∀ a l, stt.transcribeFn a l = .error e) :
    ∀ (N : Nat) (st : ContextMap) (ctx : VoiceContext),
      ctxLookup st sid = some ctx → ctx.fallbackSuggested = true →
      (sttRun cfg stt now audio language sid N st).2.map (·.isFallback)
        = List.replicate N false := by
  intro N
  induction N with
  | zero =>
    intro st ctx _ _
    simp [sttRun]
  | succ n ih =>
    intro st ctx hctx hfs
    obtain ⟨hstate, houtcome⟩ :=
      convertSpeechToText_failStep cfg stt now audio language sid st ctx e hen hfail hctx
    have hsuggest : ((failCtxStep cfg now .voice ctx).2).shouldSuggestFallback = false := by
      rw [failCtxStep_suggest, hfs]
      simp
    have hctx1 : ctxLookup ((convertSpeechToText cfg stt now audio language (some sid) st).state)
        sid = some ((failCtxStep cfg now .voice ctx).1) := by
      rw [hstate, ctxLookup_ctxUpdate_self, hctx]
      rfl
    have hfs1 : ((failCtxStep cfg now .voice ctx).1).fallbackSuggested = true := by
      rw [failCtxStep_fallbackSuggested, hfs]
      simp
    show ((convertSpeechToText cfg stt now audio language (some sid) st).outcome ::
        (sttRun cfg stt now audio language sid n
          ((convertSpeechToText cfg stt now audio language (some sid) st).state)).2).map
        (·.isFallback) = _
    rw [List.map_cons, houtcome, hsuggest, ih _ _ hctx1 hfs1]
    rfl

/-! ## History-bound lemmas -/

theorem histInv_nil : histInv [] := by
  intro p hp
  cases hp

theorem histInv_ctxUpdate (st : ContextMap) (sid : String) (f : VoiceContext → VoiceContext)
    (h : histInv st) (hf : ∀ c, (((f c).conversationHistory)).length ≤ 10) :
    histInv (ctxUpdate st sid f) := by
  intro p hp
  simp only [ctxUpdate, List.mem_map] at hp
  obtain ⟨q, hq, rfl⟩ := hp
  split
  · exact hf q.2
  · exact h q hq

theorem histInv_ctxSet (st : ContextMap) (sid : String) (c : VoiceContext)
    (h : histInv st) (hc : (c.conversationHistory).length ≤ 10) :
    histInv (ctxSet st sid c) := by
  unfold ctxSet
  split
  · exact histInv_ctxUpdate st sid _ h fun _ => hc
  · intro p hp
    rw [List.mem_append] at hp
    rcases hp with hp | hp
    · exact h p hp
    · rw [List.mem_singleton] at hp
      subst hp
      exact hc

theorem histInv_applyOp (cfg : VIConfig) (sid : String) (op : SessionOp) (st : ContextMap)
    (h : histInv st) : histInv (applyOp cfg sid op st) := by
  cases op with
  | set now language mode =>
    simp only [applyOp, setContext]
    split
    · exact h
    · exact histInv_ctxSet _ _ _ h (sliceLast10_length_le _)
  | success now language mode =>
    simp only [applyOp, updateContextOnSuccess]
    split
    · exact h
    · split
      · exact h
      · exact histInv_ctxUpdate _ _ _ h fun c => sliceLast10_length_le _
  | failure now mode =>
    simp only [applyOp, updateContextOnFailure]
    split
    · exact h
    · exact histInv_ctxUpdate _ _ _ h fun _ => by
        rw [failCtxStep_history]
        exact sliceLast10_length_le _
  | switch now newMode =>
    simp only [applyOp, switchInputMode]
    split
    · exact h
    · show histInv (ctxUpdate st sid fun c =>
        { c with
          inputMode := newMode
          lastInteraction := now
          failureCount := 0
          fallbackSuggested := false
          conversationHistory :=
            sliceLast10 (c.conversationHistory ++ [⟨now, newMode, true, c.currentLanguage⟩]) })
      refine histInv_ctxUpdate _ _ _ h ?_
      intro c
      exact sliceLast10_length_le _

theorem histInv_applyOps (cfg : VIConfig) (sid : String) :
    ∀ (ops : List SessionOp) (st : ContextMap), histInv st →
      histInv (applyOps cfg sid ops st) := by
  intro ops
  induction ops with
  | nil => intro st h; exact h
  | cons op ops ih =>
    intro st h
    exact ih _ (histInv_applyOp cfg sid op st h)

/-- On a registered session with contexts preserved, every interaction appends
exactly the record `opRecordAt` computes and truncates the history to the last
ten entries. -/
theorem applyOp_history_step (cfg : VIConfig) (sid : String) (op : SessionOp)
    (st : ContextMap) (ctx : VoiceContext)
    (hp : cfg.preserveContext = true)
    (hctx : ctxLookup st sid = some ctx) :
    ∃ ctx1, ctxLookup (applyOp cfg sid op st) sid = some ctx1 ∧
      ctx1.conversationHistory
        = sliceLast10 (ctx.conversationHistory ++ opRecordAt cfg sid op st) := by
  have hp' : ¬(cfg.preserveContext = false) := by simp [hp]
  cases op with
  | set now language mode =>
    have hl : ctxLookup (applyOp cfg sid (.set now language mode) st) sid = some
        { sessionId := sid
          currentLanguage := language
          inputMode := mode
          lastInteraction := now
          failureCount := ctx.failureCount
          totalInteractions := ctx.totalInteractions + 1
          fallbackSuggested := ctx.fallbackSuggested
          conversationHistory :=
            sliceLast10 (ctx.conversationHistory ++ [⟨now, mode, true, language⟩]) } := by
      simp only [applyOp, setContext, if_neg hp', hctx]
      rw [ctxLookup_ctxSet_self]
      rfl
    refine ⟨_, hl, ?_⟩
    simp [opRecordAt, hp]
  | success now language mode =>
    have hl : ctxLookup (applyOp cfg sid (.success now language mode) st) sid = some
        { ctx with
          currentLanguage := language
          lastInteraction := now
          failureCount := 0
          totalInteractions := ctx.totalInteractions + 1
          conversationHistory :=
            sliceLast10 (ctx.conversationHistory ++ [⟨now, mode, true, language⟩]) } := by
      simp only [applyOp, updateContextOnSuccess, if_neg hp', hctx]
      rw [ctxLookup_ctxUpdate_self, hctx]
      rfl
    refine ⟨_, hl, ?_⟩
    simp [opRecordAt, hctx, hp]
  | failure now mode =>
    have hl : ctxLookup (applyOp cfg sid (.failure now mode) st) sid = some
        ((failCtxStep cfg now mode ctx).1) := by
      simp only [applyOp, updateContextOnFailure, hctx]
      rw [ctxLookup_ctxUpdate_self, hctx]
      rfl
    refine ⟨_, hl, ?_⟩
    simp only [opRecordAt, hctx]
    exact failCtxStep_history cfg now mode ctx
  | switch now newMode =>
    have hl : ctxLookup (applyOp cfg sid (.switch now newMode) st) sid = some
        { ctx with
          inputMode := newMode
          lastInteraction := now
          failureCount := 0
          fallbackSuggested := false
          conversationHistory :=
            sliceLast10 (ctx.conversationHistory ++ [⟨now, newMode, true, ctx.currentLanguage⟩]) } := by
      simp only [applyOp, switchInputMode, hctx]
      rw [ctxLookup_ctxUpdate_self, hctx]
      rfl
    refine ⟨_, hl, ?_⟩
    simp only [opRecordAt, hctx]

/-- With contexts preserved, the record list an interaction appends to a
registered session is a single record. -/
theorem opRecordAt_single (cfg : VIConfig) (sid : String) (op : SessionOp)
    (st : ContextMap) (ctx : VoiceContext)
    (hp : cfg.preserveContext = true)
    (hctx : ctxLookup st sid = some ctx) :
    ∃ rec, opRecordAt cfg sid op st = [rec] := by
  cases op with
  | set now language mode =>
    exact ⟨⟨now, mode, true, language⟩, by simp [opRecordAt, hp]⟩
  | success now language mode =>
    exact ⟨⟨now, mode, true, language⟩, by simp [opRecordAt, hctx, hp]⟩
  | failure now mode =>
    exact ⟨⟨now, mode, false, ctx.currentLanguage⟩, by simp [opRecordAt, hctx]⟩
  | switch now newMode =>
    exact ⟨⟨now, newMode, true, ctx.currentLanguage⟩, by simp [opRecordAt, hctx]⟩

/-- An interaction never removes a registered session. -/
theorem applyOp_lookup_isSome (cfg : VIConfig) (sid : String) (op : SessionOp)
    (st : ContextMap) (ctx : VoiceContext)
    (hp : cfg.preserveContext = true)
    (hctx : ctxLookup st sid = some ctx) :
    (ctxLookup (applyOp cfg sid op st) sid).isSome := by
  obtain ⟨ctx1, h1, _⟩ := applyOp_history_step cfg sid op st ctx hp hctx
  rw [h1]
  rfl

/-- The untruncated run log grows by exactly one record per interaction on a
registered, preserved session. -/
theorem runLog_length (cfg : VIConfig) (sid : String) (hp : cfg.preserveContext = true) :
    ∀ (ops : List SessionOp) (st : ContextMap) (ctx : VoiceContext),
      ctxLookup st sid = some ctx →
      (runLog cfg sid ops st).length = ops.length := by
  intro ops
  induction ops with
  | nil => intro st ctx _; rfl
  | cons op ops ih =>
    intro st ctx hctx
    obtain ⟨rec, hrec⟩ := opRecordAt_single cfg sid op st ctx hp hctx
    obtain ⟨ctx1, h1, _⟩ := applyOp_history_step cfg sid op st ctx hp hctx
    simp only [runLog, hrec, List.length_append, List.length_cons, List.length_singleton,
      List.length_nil]
    rw [ih _ _ h1]
    omega

/-- Main history simulation: given that a session's bounded history is the
last-ten truncation of some full log `h0`, after any interaction sequence it
is the last-ten truncation of `h0` extended by the run's untruncated log. -/
theorem applyOps_history (cfg : VIConfig) (sid : String) (hp : cfg.preserveContext = true) :
    ∀ (ops : List SessionOp) (st : ContextMap) (ctx : VoiceContext)
      (h0 : List InteractionRecord),
      ctxLookup st sid = some ctx →
      ctx.conversationHistory = sliceLast10 h0 →
      (ctxLookup (applyOps cfg sid ops st) sid).map (·.conversationHistory)
        = some (sliceLast10 (h0 ++ runLog cfg sid ops st)) := by
  intro ops
  induction ops with
  | nil =>
    intro st ctx h0 hctx hh
    simp only [applyOps, runLog, List.append_nil, hctx, Option.map_some']
    rw [hh]
  | cons op ops ih =>
    intro st ctx h0 hctx hh
    obtain ⟨rec, hrec⟩ := opRecordAt_single cfg sid op st ctx hp hctx
    obtain ⟨ctx1, h1, hh1⟩ := applyOp_history_step cfg sid op st ctx hp hctx
    have hh1' : ctx1.conversationHistory = sliceLast10 (h0 ++ [rec]) := by
      rw [hh1, hrec, hh, sliceLast10_append_one]
    show (ctxLookup (applyOps cfg sid ops (applyOp cfg sid op st)) sid).map
        (·.conversationHistory) = _
    rw [ih _ _ _ h1 hh1']
    simp only [runLog, hrec]
    rw [List.append_assoc]

end VoiceInterfaceImpl

/-! ## Claim theorems: recognition cascade, audio compression, synthesis -/

/-- C1: for every recognition request where the high-accuracy (cloud) backend
reports available and its returned transcription confidence is at least the
configured acceptance threshold (default 0.8), `transcribe` returns exactly
that backend's result and the fallback (offline Whisper) backend is never
invoked. -/
theorem claim_C1_cascade_priority (cfg : STTConfig) (cloud whisper : STTBackend)
    (audio : Audio) (language : Option LanguageCode) (r : TranscriptionResult)
    (hav : cloud.available = true)
    (hres : cloud.transcribeFn audio language = .ok r)
    (hconf : cfg.confidenceThreshold ≤ r.confidence) :
    (SpeechToTextServiceImpl.transcribe cfg cloud whisper audio language).1 = .ok r ∧
    BackendId.whisper ∉ (SpeechToTextServiceImpl.transcribe cfg cloud whisper audio language).2 := by
  constructor <;>
    simp [SpeechToTextServiceImpl.transcribe, hav, hres, if_pos hconf]

/-- C1 witness: the default configuration (threshold 4/5), a cloud backend
returning confidence 96/100 and an always-failing Whisper backend. -/
theorem claim_C1_cascade_priority_witness :
    (SpeechToTextServiceImpl.transcribe STTConfig.impl
        ⟨true, ["en", "hi", "ta", "te", "bn"], fun _ _ => .ok ⟨"ok", 96/100, "hi", []⟩⟩
        ⟨true, ["en", "hi", "ta", "te", "bn"], fun _ _ => .error "offline failed"⟩
        4096 (some "hi")).1 = .ok ⟨"ok", 96/100, "hi", []⟩ ∧
    BackendId.whisper ∉ (SpeechToTextServiceImpl.transcribe STTConfig.impl
        ⟨true, ["en", "hi", "ta", "te", "bn"], fun _ _ => .ok ⟨"ok", 96/100, "hi", []⟩⟩
        ⟨true, ["en", "hi", "ta", "te", "bn"], fun _ _ => .error "offline failed"⟩
        4096 (some "hi")).2 :=
  claim_C1_cascade_priority _ _ _ _ _ _ rfl rfl (by norm_num [STTConfig.impl])

/-- C2: when the cloud backend is unavailable, `transcribe` returns the
Whisper backend's result whenever offline fallback is enabled and Whisper is
available (in particular whenever the requested language is in its supported
set), and fails with the terminal `'No STT service available'` error when
neither backend is usable — never an ok-with-nothing result. -/
theorem claim_C2_cascade_fallback (cfg : STTConfig) (cloud whisper : STTBackend)
    (audio : Audio) (language : Option LanguageCode)
    (hcloud : cloud.available = false)
    (hlang : ∀ l, language = some l → l ∈ whisper.supported) :
    (SpeechToTextServiceImpl.transcribe cfg cloud whisper audio language).1 =
      (if cfg.fallbackToOffline && whisper.available then whisper.transcribeFn audio language
       else .error "No STT service available") := by
  unfold SpeechToTextServiceImpl.transcribe
  rw [if_neg (by simp [hcloud])]
  unfold SpeechToTextServiceImpl.transcribeFallback
  by_cases h : (cfg.fallbackToOffline && whisper.available) = true <;> simp [h]

/-- C2 witness: cloud down, offline fallback enabled and Whisper available for
the requested language, so its result is returned. -/
theorem claim_C2_cascade_fallback_witness :
    (SpeechToTextServiceImpl.transcribe STTConfig.impl
        ⟨false, ["en", "hi", "ta", "te", "bn"], fun _ _ => .error "cloud down"⟩
        ⟨true, ["en", "hi", "ta", "te", "bn"], fun _ _ => .ok ⟨"offline", 92/100, "hi", []⟩⟩
        4096 (some "hi")).1 = .ok ⟨"offline", 92/100, "hi", []⟩ :=
  (claim_C2_cascade_fallback STTConfig.impl _ _ 4096 (some "hi") rfl
    (fun l hl => by cases hl; decide)).trans rfl

/-- Level-1 compression of a 102400-byte payload emits
`Math.floor(102400 * 0.1) = 10240` bytes. -/
theorem compressAudio_102400_level1 :
    AudioProcessor.compressAudio APConfig.impl (100 * 1024) 1 = 10240 := by
  have henable : ¬ (APConfig.impl.enableCompression = false) := by decide
  have hsize : ¬ ((100 * 1024 : Nat) ≤ AudioProcessor.getTargetSize 1) := by decide
  have hval : ((100 * 1024 : ℕ) : ℚ) * (COMPRESSION_SETTINGS 1).quality = ((10240 : ℕ) : ℚ) := by
    show ((100 * 1024 : ℕ) : ℚ) * (1 / 10) = ((10240 : ℕ) : ℚ)
    push_cast
    norm_num
  simp only [AudioProcessor.compressAudio, if_neg henable, if_neg hsize, hval,
    Int.floor_natCast]
  rfl

/-- Level-10 compression of a 102400-byte payload is a no-op: the payload is
already below the 400000-byte level-10 target size. -/
theorem compressAudio_102400_level10 :
    AudioProcessor.compressAudio APConfig.impl (100 * 1024) 10 = 100 * 1024 := by
  have henable : ¬ (APConfig.impl.enableCompression = false) := by decide
  simp only [AudioProcessor.compressAudio, if_neg henable]
  rw [if_pos (by decide)]

/-- C7 counterexample: on a 100 KB payload (102400 bytes, the repository
measures sizes in 1024-based units, e.g. its 5 MB cap is `5 * 1024 * 1024`),
`compressAudio` at level 1 emits `Math.floor(102400 * 0.1) = 10240` bytes,
which exceeds the 10000-byte level-1 target size `(8 kbps * 10 s) / 8`. -/
theorem claim_C7_counterexample :
    AudioProcessor.compressAudio APConfig.impl (100 * 1024) 1 = 10240 ∧
    AudioProcessor.getTargetSize 1 = 10000 ∧
    ¬ (AudioProcessor.compressAudio APConfig.impl (100 * 1024) 1
        ≤ AudioProcessor.getTargetSize 1) := by
  refine ⟨compressAudio_102400_level1, by decide, ?_⟩
  rw [compressAudio_102400_level1]
  decide

/-- C7 (amended): on a 100 KB (102400-byte) payload, level-1 compression
yields exactly one tenth of the payload (10240 bytes — 240 bytes above the
10000-byte level-1 target), level-10 compression is a no-op (the payload is
already under the 400000-byte level-10 target), and the level-10 output is at
least as large as the level-1 output. -/
theorem claim_C7_compress_levels :
    AudioProcessor.compressAudio APConfig.impl (100 * 1024) 1 = 10240 ∧
    AudioProcessor.getTargetSize 10 = 400000 ∧
    AudioProcessor.compressAudio APConfig.impl (100 * 1024) 10 = 100 * 1024 ∧
    AudioProcessor.compressAudio APConfig.impl (100 * 1024) 1
      ≤ AudioProcessor.compressAudio APConfig.impl (100 * 1024) 10 := by
  refine ⟨compressAudio_102400_level1, by decide, compressAudio_102400_level10, ?_⟩
  rw [compressAudio_102400_level1, compressAudio_102400_level10]
  decide

/-- C8: `synthesize` rejects empty (or whitespace-only) text and unsupported
languages up front with a validation error, invoking no synthesis backend. -/
theorem claim_C8_synthesize_validation (cfg : TTSConfig) (localEngine : LocalEngine)
    (cloudProvider : CloudProvider) (text : String) (language : LanguageCode)
    (voice : Option VoiceProfile)
    (h : jsTrim text = "" ∨ language ∉ TextToSpeechServiceImpl.supportedLanguages) :
    (∃ msg, (TextToSpeechServiceImpl.synthesize cfg localEngine cloudProvider text language
        voice).1 = .error (.validation msg)) ∧
    (TextToSpeechServiceImpl.synthesize cfg localEngine cloudProvider text language voice).2
      = [] := by
  unfold TextToSpeechServiceImpl.synthesize
  by_cases h1 : text = "" ∨ jsTrim text = ""
  · rw [if_pos h1]
    exact ⟨⟨_, rfl⟩, rfl⟩
  · rcases h with h | h
    · exact absurd (Or.inr h) h1
    · rw [if_neg h1, if_pos h]
      exact ⟨⟨_, rfl⟩, rfl⟩

/-- C8 witness: `synthesize("", "en")` fails validation and neither the local
engine nor the cloud provider is invoked. -/
theorem claim_C8_synthesize_validation_witness :
    (∃ msg, (TextToSpeechServiceImpl.synthesize TTSConfig.impl
        ⟨["en", "hi"], fun _ _ _ => .ok ⟨100, "wav", 1, 22050⟩⟩
        ⟨true, fun _ _ _ => .ok ⟨100, "mp3", 1, 44100⟩⟩ "" "en" none).1
      = .error (.validation msg)) ∧
    (TextToSpeechServiceImpl.synthesize TTSConfig.impl
        ⟨["en", "hi"], fun _ _ _ => .ok ⟨100, "wav", 1, 22050⟩⟩
        ⟨true, fun _ _ _ => .ok ⟨100, "mp3", 1, 44100⟩⟩ "" "en" none).2 = [] :=
  claim_C8_synthesize_validation _ _ _ _ _ _ (Or.inl (by decide))


/-! ## Claim theorems: session orchestrator -/

namespace VoiceInterfaceImpl

/-- Count of hits in `List.range N` of the predicate "position `j` is the one
where `j + 1` first reaches the threshold `m`". -/
theorem countP_range_threshold (m : Nat) (hm : 1 ≤ m) :
    ∀ N : Nat, ((List.range N).countP fun j => decide (j + 1 = m))
      = if m ≤ N then 1 else 0 := by
  intro N
  induction N with
  | zero =>
    rw [List.range_zero, List.countP_nil, if_neg (by omega)]
  | succ n ih =>
    rw [List.range_succ, List.countP_append, ih]
    by_cases h : n + 1 = m
    · have h1 : ¬ m ≤ n := by omega
      have h2 : m ≤ n + 1 := by omega
      simp [h, h1, h2]
    · by_cases h2 : m ≤ n
      · have h3 : m ≤ n + 1 := by omega
        simp [h, h2, h3]
      · have h3 : ¬ (m ≤ n + 1) := by omega
        simp [h, h2, h3]

/-- C9: a failing `speechToText` call addressed to a session with no context
entry re-raises the original recognition error (no fallback suggestion is
attached) and leaves the session registry unchanged — in particular no
context entry is created for that session. -/
theorem claim_C9_unknown_session_failure (cfg : VIConfig) (stt : STTService) (now : Nat)
    (audio : Audio) (language : Option LanguageCode) (sid : String) (st : ContextMap)
    (e : String)
    (hen : cfg.enableVoiceInput = true)
    (hno : ctxLookup st sid = none)
    (hfail : ∀ a l, stt.transcribeFn a l = .error e) :
    (convertSpeechToText cfg stt now audio language (some sid) st).outcome = .error e ∧
    (convertSpeechToText cfg stt now audio language (some sid) st).state = st ∧
    ctxLookup ((convertSpeechToText cfg stt now audio language (some sid) st).state) sid
      = none := by
  have h0 : ¬(cfg.enableVoiceInput = false) := by simp [hen]
  refine ⟨?_, ?_, ?_⟩ <;>
    simp [convertSpeechToText, if_neg h0, hfail, updateContextOnFailure, hno]

/-- C9 witness: an unknown session id, a failing recognizer; the error is
re-raised unwrapped and the registry still has no entry for the session. -/
theorem claim_C9_unknown_session_failure_witness :
    (convertSpeechToText VIConfig.impl ⟨true, fun _ => .ok "hi", fun _ _ => .error "STT failed"⟩
        7 4096 none (some "ghost") []).outcome = .error "STT failed" ∧
    (convertSpeechToText VIConfig.impl ⟨true, fun _ => .ok "hi", fun _ _ => .error "STT failed"⟩
        7 4096 none (some "ghost") []).state = [] ∧
    ctxLookup ((convertSpeechToText VIConfig.impl
        ⟨true, fun _ => .ok "hi", fun _ _ => .error "STT failed"⟩
        7 4096 none (some "ghost") []).state) "ghost" = none :=
  claim_C9_unknown_session_failure VIConfig.impl _ 7 4096 none "ghost" [] "STT failed"
    rfl rfl (fun _ _ => rfl)

/-- C10: `processTextInput` on empty or whitespace-only text throws the
validation error before touching any context: the registry — and hence every
session's `failureCount`, `totalInteractions`, `lastInteraction` and
history — is exactly as before the call. -/
theorem claim_C10_empty_text_no_mutation (cfg : VIConfig) (now : Nat) (text : String)
    (sid : String) (language : Option LanguageCode) (st : ContextMap)
    (h : jsTrim text = "") :
    processTextInput cfg now text sid language st
      = (.error "Text input cannot be empty", st) ∧
    ∀ s, ctxLookup (processTextInput cfg now text sid language st).2 s = ctxLookup st s := by
  have hc : (text = "" ∨ jsTrim text = "") := Or.inr h
  refine ⟨?_, fun s => ?_⟩ <;> simp only [processTextInput, if_pos hc]

/-- C10 witness: whitespace-only input against a populated registry; the
registered context is byte-for-byte unchanged. -/
theorem claim_C10_empty_text_no_mutation_witness :
    processTextInput VIConfig.impl 9 "   " "s1" none
        [("s1", ⟨"s1", "hi", .voice, 3, 1, 4, false, []⟩)]
      = (.error "Text input cannot be empty", [("s1", ⟨"s1", "hi", .voice, 3, 1, 4, false, []⟩)]) ∧
    ∀ s, ctxLookup (processTextInput VIConfig.impl 9 "   " "s1" none
        [("s1", ⟨"s1", "hi", .voice, 3, 1, 4, false, []⟩)]).2 s
      = ctxLookup [("s1", (⟨"s1", "hi", .voice, 3, 1, 4, false, []⟩ : VoiceContext))] s :=
  claim_C10_empty_text_no_mutation VIConfig.impl 9 "   " "s1" none
    [("s1", ⟨"s1", "hi", .voice, 3, 1, 4, false, []⟩)] (by decide)


/-- C3: on a session with a (clean) context entry in voice mode, after N ≥ 1
consecutive failing `speechToText` calls the session's `failureCount` equals
N, and exactly one fallback-eligible error (the `VoiceInputError` carrying the
fallback suggestion) is raised across the run — at the call where
`failureCount` first reaches `maxFailuresBeforeFallback`, not earlier and not
on any later failure of the same run. -/
theorem claim_C3_failure_run (cfg : VIConfig) (stt : STTService) (now : Nat) (audio : Audio)
    (language : Option LanguageCode) (sid : String) (st : ContextMap) (ctx : VoiceContext)
    (e : String) (N : Nat)
    (hen : cfg.enableVoiceInput = true)
    (hfb : cfg.fallbackToText = true)
    (hmax : 1 ≤ cfg.maxFailuresBeforeFallback)
    (hctx : ctxLookup st sid = some ctx)
    (hmode : ctx.inputMode = .voice)
    (hfc : ctx.failureCount = 0)
    (hfs : ctx.fallbackSuggested = false)
    (hfail : ∀ a l, stt.transcribeFn a l = .error e)
    (hN : 1 ≤ N) :
    ((ctxLookup (sttRun cfg stt now audio language sid N st).1 sid).map (·.failureCount)
        = some N) ∧
    ((sttRun cfg stt now audio language sid N st).2.map (·.isFallback)
        = (List.range N).map fun j => decide (j + 1 = cfg.maxFailuresBeforeFallback)) ∧
    ((sttRun cfg stt now audio language sid N st).2.countP (·.isFallback)
        = if cfg.maxFailuresBeforeFallback ≤ N then 1 else 0) := by
  have hfs' : ctx.fallbackSuggested
      = decide (cfg.maxFailuresBeforeFallback ≤ ctx.failureCount) := by
    rw [hfs, hfc]
    symm
    simp only [decide_eq_false_iff_not]
    omega
  obtain ⟨h1, h2⟩ :=
    sttRun_fail_spec cfg stt now audio language sid e hen hfb hfail N st ctx hctx hfs'
  rw [hfc] at h1 h2
  have h2' : (sttRun cfg stt now audio language sid N st).2.map (·.isFallback)
      = (List.range N).map fun j => decide (j + 1 = cfg.maxFailuresBeforeFallback) := by
    rw [h2]
    exact List.map_congr_left fun j hj => decide_eq_decide.mpr (by omega)
  refine ⟨by simpa using h1, h2', ?_⟩
  have hcnt : (sttRun cfg stt now audio language sid N st).2.countP (·.isFallback)
      = ((sttRun cfg stt now audio language sid N st).2.map (·.isFallback)).countP
          (fun b => b) := by
    rw [List.countP_map]
    rfl
  rw [hcnt, h2', List.countP_map]
  have : ((fun b => b) ∘ fun j => decide (j + 1 = cfg.maxFailuresBeforeFallback))
      = fun j => decide (j + 1 = cfg.maxFailuresBeforeFallback) := rfl
  rw [this]
  exact countP_range_threshold cfg.maxFailuresBeforeFallback hmax N

/-- C3 witness: default configuration (`maxFailuresBeforeFallback = 2`), a
fresh voice session, three consecutive failures: counts reach 3 and the
outcome pattern is no-fallback, fallback, no-fallback. -/
theorem claim_C3_failure_run_witness :
    ((ctxLookup (sttRun VIConfig.impl
        ⟨true, fun _ => .ok "hi", fun _ _ => .error "STT failed"⟩ 1 4096 none "s1" 3
        [("s1", ⟨"s1", "hi", .voice, 0, 0, 1, false, [⟨0, .voice, true, "hi"⟩]⟩)]).1 "s1").map
        (·.failureCount) = some 3) ∧
    ((sttRun VIConfig.impl ⟨true, fun _ => .ok "hi", fun _ _ => .error "STT failed"⟩
        1 4096 none "s1" 3
        [("s1", ⟨"s1", "hi", .voice, 0, 0, 1, false, [⟨0, .voice, true, "hi"⟩]⟩)]).2.map
        (·.isFallback)
      = (List.range 3).map fun j => decide (j + 1 = VIConfig.impl.maxFailuresBeforeFallback)) ∧
    ((sttRun VIConfig.impl ⟨true, fun _ => .ok "hi", fun _ _ => .error "STT failed"⟩
        1 4096 none "s1" 3
        [("s1", ⟨"s1", "hi", .voice, 0, 0, 1, false, [⟨0, .voice, true, "hi"⟩]⟩)]).2.countP
        (·.isFallback)
      = if VIConfig.impl.maxFailuresBeforeFallback ≤ 3 then 1 else 0) :=
  claim_C3_failure_run VIConfig.impl ⟨true, fun _ => .ok "hi", fun _ _ => .error "STT failed"⟩
    1 4096 none "s1" [("s1", ⟨"s1", "hi", .voice, 0, 0, 1, false, [⟨0, .voice, true, "hi"⟩]⟩)]
    ⟨"s1", "hi", .voice, 0, 0, 1, false, [⟨0, .voice, true, "hi"⟩]⟩ "STT failed" 3
    rfl rfl (by decide) (by decide) rfl rfl rfl (fun _ _ => rfl) (by decide)


/-- C4 counterexample: default configuration (`maxFailuresBeforeFallback = 2`),
session `s1`.  Two failures surface the fallback (second call), a successful
recognition call then resets `failureCount` to 0 — but a fresh run of two more
voice failures raises no fallback-eligible error, because
`updateContextOnSuccess` never clears `fallbackSuggested`: success is not a
reset event for suppression, contradicting the claim. -/
theorem claim_C4_counterexample :
    ((sttRun VIConfig.impl ⟨true, fun _ => .ok "hi", fun _ _ => .error "STT failed"⟩
        1 4096 none "s1" 2
        [("s1", ⟨"s1", "hi", .voice, 0, 0, 1, false, [⟨0, .voice, true, "hi"⟩]⟩)]).2.map
        (·.isFallback) = [false, true]) ∧
    ((ctxLookup (convertSpeechToText VIConfig.impl
        ⟨true, fun _ => .ok "hi", fun _ l => .ok ⟨"t", 1, l, []⟩⟩ 2 4096 none (some "s1")
        (sttRun VIConfig.impl ⟨true, fun _ => .ok "hi", fun _ _ => .error "STT failed"⟩
          1 4096 none "s1" 2
          [("s1", ⟨"s1", "hi", .voice, 0, 0, 1, false, [⟨0, .voice, true, "hi"⟩]⟩)]).1).state
        "s1").map (·.failureCount) = some 0) ∧
    ((sttRun VIConfig.impl ⟨true, fun _ => .ok "hi", fun _ _ => .error "STT failed"⟩
        3 4096 none "s1" 2
        (convertSpeechToText VIConfig.impl
          ⟨true, fun _ => .ok "hi", fun _ l => .ok ⟨"t", 1, l, []⟩⟩ 2 4096 none (some "s1")
          (sttRun VIConfig.impl ⟨true, fun _ => .ok "hi", fun _ _ => .error "STT failed"⟩
            1 4096 none "s1" 2
            [("s1", ⟨"s1", "hi", .voice, 0, 0, 1, false, [⟨0, .voice, true, "hi"⟩]⟩)]).1).state).2.map
        (·.isFallback) = [false, false]) ∧
    ¬ ((sttRun VIConfig.impl ⟨true, fun _ => .ok "hi", fun _ _ => .error "STT failed"⟩
        3 4096 none "s1" 2
        (convertSpeechToText VIConfig.impl
          ⟨true, fun _ => .ok "hi", fun _ l => .ok ⟨"t", 1, l, []⟩⟩ 2 4096 none (some "s1")
          (sttRun VIConfig.impl ⟨true, fun _ => .ok "hi", fun _ _ => .error "STT failed"⟩
            1 4096 none "s1" 2
            [("s1", ⟨"s1", "hi", .voice, 0, 0, 1, false, [⟨0, .voice, true, "hi"⟩]⟩)]).1).state).2.map
        (·.isFallback) = [false, true]) := by
  refine ⟨by decide, by decide, by decide, by decide⟩

/-- C4 (amended): once a fallback recommendation has been surfaced
(`fallbackSuggested` is set), repeat recommendations are suppressed until a
mode switch: after a subsequent successful recognition call, a new run of
voice-mode failures of any length raises no fallback-eligible error (success
resets `failureCount` but not `fallbackSuggested`); after `switchInputMode`
(which clears the flag), a new run of `maxFailuresBeforeFallback` consecutive
voice-mode failures raises the fallback-eligible error again, exactly at the
threshold call. -/
theorem claim_C4_suppression_until_switch (cfg : VIConfig) (sttS sttF : STTService)
    (now1 now2 : Nat) (audio : Audio) (language : Option LanguageCode) (sid : String)
    (st : ContextMap) (ctx : VoiceContext) (r : TranscriptionResult) (e : String) (N : Nat)
    (hen : cfg.enableVoiceInput = true)
    (hfb : cfg.fallbackToText = true)
    (hmax : 1 ≤ cfg.maxFailuresBeforeFallback)
    (hctx : ctxLookup st sid = some ctx)
    (hfs : ctx.fallbackSuggested = true)
    (hok : ∀ a l, sttS.transcribeFn a l = .ok r)
    (hfail : ∀ a l, sttF.transcribeFn a l = .error e) :
    ((sttRun cfg sttF now2 audio language sid N
        ((convertSpeechToText cfg sttS now1 audio language (some sid) st).state)).2.map
        (·.isFallback) = List.replicate N false) ∧
    ((sttRun cfg sttF now2 audio language sid N
        ((switchInputMode now1 sid .voice st).1)).2.map (·.isFallback)
      = (List.range N).map fun j => decide (j + 1 = cfg.maxFailuresBeforeFallback)) := by
  constructor
  · rw [convertSpeechToText_okState cfg sttS now1 audio language sid st r hen hok]
    obtain ⟨ctx2, hl2, hfs2⟩ := updateContextOnSuccess_fallbackSuggested cfg now1 sid
      (language.getD (detectLanguage cfg sttS audio)) InputMode.voice st ctx hctx
    exact sttRun_suppressed cfg sttF now2 audio language sid e hen hfail N _ ctx2 hl2
      (hfs2.trans hfs)
  · obtain ⟨-, ctx2, hl2, hfc2, hfs2⟩ := switchInputMode_resets now1 sid .voice st ctx hctx
    have hfs2' : ctx2.fallbackSuggested
        = decide (cfg.maxFailuresBeforeFallback ≤ ctx2.failureCount) := by
      rw [hfs2, hfc2]
      symm
      simp only [decide_eq_false_iff_not]
      omega
    obtain ⟨-, hmap⟩ := sttRun_fail_spec cfg sttF now2 audio language sid e hen hfb hfail N
      ((switchInputMode now1 sid .voice st).1) ctx2 hl2 hfs2'
    rw [hmap, hfc2]
    exact List.map_congr_left fun j hj => decide_eq_decide.mpr (by omega)

/-- C4 witness for the amended claim: default configuration, a session whose
fallback has been surfaced; after a success two further failures raise
nothing, after a mode switch the second failure raises the fallback again. -/
theorem claim_C4_suppression_until_switch_witness :
    ((sttRun VIConfig.impl ⟨true, fun _ => .ok "hi", fun _ _ => .error "STT failed"⟩
        3 4096 none "s1" 2
        ((convertSpeechToText VIConfig.impl
          ⟨true, fun _ => .ok "hi", fun _ _ => .ok ⟨"t", 1, "hi", []⟩⟩ 2 4096 none (some "s1")
          [("s1", ⟨"s1", "hi", .voice, 1, 2, 3, true, [⟨0, .voice, true, "hi"⟩]⟩)]).state)).2.map
        (·.isFallback) = List.replicate 2 false) ∧
    ((sttRun VIConfig.impl ⟨true, fun _ => .ok "hi", fun _ _ => .error "STT failed"⟩
        3 4096 none "s1" 2
        ((switchInputMode 2 "s1" .voice
          [("s1", ⟨"s1", "hi", .voice, 1, 2, 3, true, [⟨0, .voice, true, "hi"⟩]⟩)]).1)).2.map
        (·.isFallback)
      = (List.range 2).map fun j => decide (j + 1 = VIConfig.impl.maxFailuresBeforeFallback)) :=
  claim_C4_suppression_until_switch VIConfig.impl
    ⟨true, fun _ => .ok "hi", fun _ _ => .ok ⟨"t", 1, "hi", []⟩⟩
    ⟨true, fun _ => .ok "hi", fun _ _ => .error "STT failed"⟩
    2 3 4096 none "s1"
    [("s1", ⟨"s1", "hi", .voice, 1, 2, 3, true, [⟨0, .voice, true, "hi"⟩]⟩)]
    ⟨"s1", "hi", .voice, 1, 2, 3, true, [⟨0, .voice, true, "hi"⟩]⟩
    ⟨"t", 1, "hi", []⟩ "STT failed" 2
    rfl rfl (by decide) rfl rfl (fun _ _ => rfl) (fun _ _ => rfl)


/-- C6 counterexample: a session whose context language is `"ta"`, no
caller-supplied language, a configured default of `"en"`, and an STT service
whose detection returns `"hi"`: the recognition cascade is invoked with
`"hi"` — the session's `currentLanguage` is never consulted, so the claimed
precedence (explicit > session language > default) does not hold. -/
theorem claim_C6_counterexample :
    ((ctxLookup [("s1", (⟨"s1", "ta", .voice, 0, 0, 1, false, []⟩ : VoiceContext))] "s1").map
        (·.currentLanguage) = some "ta") ∧
    ((convertSpeechToText { VIConfig.impl with defaultLanguage := "en" }
        ⟨true, fun _ => .ok "hi", fun _ _ => .ok ⟨"t", 1, "hi", []⟩⟩ 0 4096 none (some "s1")
        [("s1", ⟨"s1", "ta", .voice, 0, 0, 1, false, []⟩)]).calledLanguages = ["hi"]) ∧
    ("hi" : String) ≠ "ta" ∧ ("hi" : String) ≠ "en" := by
  refine ⟨by decide, by decide, by decide, by decide⟩

/-- C6 (amended): `speechToText` resolves the target language passed to the
recognition cascade by the precedence: caller-supplied language first, else
the STT service's audio-based detection (`detectLanguage`, which itself falls
back to the configured default language when the service lacks detection or
detection fails); the session's `currentLanguage` is never consulted — the
resolved language is independent of the session registry. -/
theorem claim_C6_language_resolution (cfg : VIConfig) (stt : STTService) (now : Nat)
    (audio : Audio) (language : Option LanguageCode) (sessionId : Option String)
    (st st2 : ContextMap)
    (hen : cfg.enableVoiceInput = true) :
    ((convertSpeechToText cfg stt now audio language sessionId st).calledLanguages
        = [language.getD (detectLanguage cfg stt audio)]) ∧
    ((convertSpeechToText cfg stt now audio language sessionId st).calledLanguages
        = (convertSpeechToText cfg stt now audio language sessionId st2).calledLanguages) ∧
    (stt.hasDetection = false → detectLanguage cfg stt audio = cfg.defaultLanguage) ∧
    (∀ e, stt.detectFn audio = .error e → detectLanguage cfg stt audio = cfg.defaultLanguage) ∧
    (∀ l, stt.hasDetection = true → stt.detectFn audio = .ok l →
      detectLanguage cfg stt audio = l) := by
  have h0 : ¬(cfg.enableVoiceInput = false) := by simp [hen]
  have key : ∀ (s : ContextMap),
      (convertSpeechToText cfg stt now audio language sessionId s).calledLanguages
        = [language.getD (detectLanguage cfg stt audio)] := by
    intro s
    simp only [convertSpeechToText, if_neg h0]
    rcases htr : stt.transcribeFn audio (language.getD (detectLanguage cfg stt audio))
      with e | r <;> rcases sessionId with _ | sid <;> simp only [htr] <;>
        first
          | rfl
          | (split <;> rfl)
  refine ⟨key st, (key st).trans (key st2).symm, ?_, ?_, ?_⟩
  · intro h
    simp [detectLanguage, h]
  · intro e he
    rcases hd : stt.hasDetection with _ | _ <;> simp [detectLanguage, hd, he]
  · intro l hd hl
    simp [detectLanguage, hd, hl]

/-- C6 witness for the amended claim: with no caller language, detection
returning `"hi"`, the cascade is invoked with `"hi"` regardless of the
(distinct) registries, and the detection fallbacks hold. -/
theorem claim_C6_language_resolution_witness :
    ((convertSpeechToText { VIConfig.impl with defaultLanguage := "en" }
        ⟨true, fun _ => .ok "hi", fun _ _ => .ok ⟨"t", 1, "hi", []⟩⟩ 0 4096 none (some "s1")
        [("s1", ⟨"s1", "ta", .voice, 0, 0, 1, false, []⟩)]).calledLanguages
      = [(none : Option LanguageCode).getD
          (detectLanguage { VIConfig.impl with defaultLanguage := "en" }
            ⟨true, fun _ => .ok "hi", fun _ _ => .ok ⟨"t", 1, "hi", []⟩⟩ 4096)]) ∧
    ((convertSpeechToText { VIConfig.impl with defaultLanguage := "en" }
        ⟨true, fun _ => .ok "hi", fun _ _ => .ok ⟨"t", 1, "hi", []⟩⟩ 0 4096 none (some "s1")
        [("s1", ⟨"s1", "ta", .voice, 0, 0, 1, false, []⟩)]).calledLanguages
      = (convertSpeechToText { VIConfig.impl with defaultLanguage := "en" }
        ⟨true, fun _ => .ok "hi", fun _ _ => .ok ⟨"t", 1, "hi", []⟩⟩ 0 4096 none (some "s1")
        []).calledLanguages) ∧
    ((⟨true, fun _ => .ok "hi", fun _ _ => .ok ⟨"t", 1, "hi", []⟩⟩ : STTService).hasDetection
        = false →
      detectLanguage { VIConfig.impl with defaultLanguage := "en" }
        ⟨true, fun _ => .ok "hi", fun _ _ => .ok ⟨"t", 1, "hi", []⟩⟩ 4096 = "en") ∧
    (∀ e, (⟨true, fun _ => .ok "hi", fun _ _ => .ok ⟨"t", 1, "hi", []⟩⟩ : STTService).detectFn
        4096 = .error e →
      detectLanguage { VIConfig.impl with defaultLanguage := "en" }
        ⟨true, fun _ => .ok "hi", fun _ _ => .ok ⟨"t", 1, "hi", []⟩⟩ 4096 = "en") ∧
    (∀ l, (⟨true, fun _ => .ok "hi", fun _ _ => .ok ⟨"t", 1, "hi", []⟩⟩ : STTService).hasDetection
        = true →
      (⟨true, fun _ => .ok "hi", fun _ _ => .ok ⟨"t", 1, "hi", []⟩⟩ : STTService).detectFn 4096
        = .ok l →
      detectLanguage { VIConfig.impl with defaultLanguage := "en" }
        ⟨true, fun _ => .ok "hi", fun _ _ => .ok ⟨"t", 1, "hi", []⟩⟩ 4096 = l) :=
  claim_C6_language_resolution { VIConfig.impl with defaultLanguage := "en" }
    ⟨true, fun _ => .ok "hi", fun _ _ => .ok ⟨"t", 1, "hi", []⟩⟩ 0 4096 none (some "s1")
    [("s1", ⟨"s1", "ta", .voice, 0, 0, 1, false, []⟩)] [] rfl


/-- C5: every operation that touches a session's conversation history
(context creation, success update, failure update, mode switch) leaves every
registered history at most ten records long; on a preserved, registered
session the history after any interaction sequence is exactly the last-ten
truncation, in insertion order, of the full (untruncated) interaction log;
each interaction appends exactly one record to that log; and once the log
holds at least ten records the history holds exactly ten. -/
theorem claim_C5_history_bound (cfg : VIConfig) (sid : String) (st : ContextMap)
    (ctx : VoiceContext) (h0 : List InteractionRecord) (ops : List SessionOp)
    (hp : cfg.preserveContext = true)
    (hctx : ctxLookup st sid = some ctx)
    (hh : ctx.conversationHistory = sliceLast10 h0)
    (hinv : histInv st) :
    (∀ n, histInv (applyOps cfg sid (ops.take n) st)) ∧
    ((ctxLookup (applyOps cfg sid ops st) sid).map (·.conversationHistory)
      = some (sliceLast10 (h0 ++ runLog cfg sid ops st))) ∧
    ((runLog cfg sid ops st).length = ops.length) ∧
    (10 ≤ (h0 ++ runLog cfg sid ops st).length →
      ((ctxLookup (applyOps cfg sid ops st) sid).map (·.conversationHistory.length)
        = some 10)) := by
  have hb : (ctxLookup (applyOps cfg sid ops st) sid).map (·.conversationHistory)
      = some (sliceLast10 (h0 ++ runLog cfg sid ops st)) :=
    applyOps_history cfg sid hp ops st ctx h0 hctx hh
  refine ⟨fun n => histInv_applyOps cfg sid (ops.take n) st hinv, hb,
    runLog_length cfg sid hp ops st ctx hctx, fun hlen => ?_⟩
  rcases hlk : ctxLookup (applyOps cfg sid ops st) sid with _ | c'
  · rw [hlk] at hb
    exact absurd hb (by simp)
  · rw [hlk] at hb
    rw [Option.map_some'] at hb ⊢
    have hc' : c'.conversationHistory = sliceLast10 (h0 ++ runLog cfg sid ops st) :=
      Option.some_injective _ hb
    rw [hc', sliceLast10_length_of_ge _ hlen]

/-- C5 witness: a fresh session with a one-record history, twelve further
successful interactions; after every prefix the bound holds, the final
history is the last-ten slice of the thirteen-record log, and it has exactly
ten records. -/
theorem claim_C5_history_bound_witness :
    histInv (applyOps VIConfig.impl "s1"
        ((List.replicate 12 (SessionOp.success 1 "hi" InputMode.voice)).take 7)
        [("s1", ⟨"s1", "hi", .voice, 0, 0, 1, false, [⟨0, .voice, true, "hi"⟩]⟩)]) ∧
    ((ctxLookup (applyOps VIConfig.impl "s1"
        (List.replicate 12 (SessionOp.success 1 "hi" InputMode.voice))
        [("s1", ⟨"s1", "hi", .voice, 0, 0, 1, false, [⟨0, .voice, true, "hi"⟩]⟩)]) "s1").map
        (·.conversationHistory)
      = some (sliceLast10 ([⟨0, .voice, true, "hi"⟩]
          ++ runLog VIConfig.impl "s1"
              (List.replicate 12 (SessionOp.success 1 "hi" InputMode.voice))
              [("s1", ⟨"s1", "hi", .voice, 0, 0, 1, false, [⟨0, .voice, true, "hi"⟩]⟩)]))) ∧
    ((runLog VIConfig.impl "s1" (List.replicate 12 (SessionOp.success 1 "hi" InputMode.voice))
        [("s1", ⟨"s1", "hi", .voice, 0, 0, 1, false, [⟨0, .voice, true, "hi"⟩]⟩)]).length
      = 12) ∧
    ((ctxLookup (applyOps VIConfig.impl "s1"
        (List.replicate 12 (SessionOp.success 1 "hi" InputMode.voice))
        [("s1", ⟨"s1", "hi", .voice, 0, 0, 1, false, [⟨0, .voice, true, "hi"⟩]⟩)]) "s1").map
        (·.conversationHistory.length) = some 10) := by
  have h := claim_C5_history_bound VIConfig.impl "s1"
    [("s1", ⟨"s1", "hi", .voice, 0, 0, 1, false, [⟨0, .voice, true, "hi"⟩]⟩)]
    ⟨"s1", "hi", .voice, 0, 0, 1, false, [⟨0, .voice, true, "hi"⟩]⟩
    [⟨0, .voice, true, "hi"⟩]
    (List.replicate 12 (SessionOp.success 1 "hi" InputMode.voice))
    rfl (by decide) (by decide) (by decide)
  exact ⟨h.1 7, h.2.1, (h.2.2.1).trans (by decide), h.2.2.2 (by decide)⟩

end VoiceInterfaceImpl

end Sahaay
